import Mathlib

/-!
Verification of the Marvin query `Results` engine
(`src/python/marvin/tools/query/results.py`).

The engine is shallowly embedded: the controller state is a record, every
navigation operation is a pure function from a state (plus arguments) to a
`Step` holding the post-call state, an optional raised error, and the list
of emitted warnings.  Rows are association lists of field names to values;
the dynamically created `marvintuple` row classes are modelled by `MRow`,
which carries the row fields together with the class-level `_release` and
`_searchfilter` attributes used by the overloaded `__add__` (`new_add`).

The model covers controllers without an auto-conversion `returntype`
(tool conversion, section 4.5 of the spec, is outside the modelled
fragment).  Remote responses are modelled as slices of the same underlying
logical result set served by the remote strategy.
-/

namespace Marvin

/-- Execution mode of a controller: `loc` stands for the source mode
string `local` (a reserved word in Lean), `rem` for `remote`. -/
inductive Mode where
  | loc : Mode
  | rem : Mode
deriving DecidableEq, Repr

/-- Warnings issued through `warnings.warn(..., MarvinUserWarning)`. -/
inductive Warn where
  /-- Warning `Chunk cannot be negative` of `getNext` / `getPrevious`,
  and the warning `Limit cannot be negative` of `getSubset`. -/
  | negChunk : Warn
  /-- Warning `You have reached the end.` -/
  | atEnd : Warn
  /-- Warning `You have reached the beginning.` -/
  | atStart : Warn
  /-- Warning `You have all the results.  Cannot go forward/back`. -/
  | allResults : Warn
deriving DecidableEq, Repr

/-- Errors raised (as exceptions) by the navigation operations. -/
inductive Err where
  /-- Error `MarvinError(No URL Map found.  Cannot make remote call)`; in
  `getAll` the missing map instead surfaces as a `TypeError` when
  `config.urlmap` is subscripted, which aborts the call all the same. -/
  | noRouteMap : Err
  /-- Error `MarvinError` re-raised by `_interaction` when the HTTP
  `Interaction` fails. -/
  | transport : Err
  /-- Error `MarvinUserWarning` raised by `getAll` when the result set
  exceeds 500000 rows or 25 columns. -/
  | resultTooLarge : Err
  /-- Error `MarvinUserWarning(Cannot merge subsets. Different named
  columns from base set. ...)`. -/
  | columnMismatch : Err
  /-- Error `MarvinUserWarning(Cannot merge subsets. Column number
  mismatch among subsets. ...)`. -/
  | columnCountMismatch : Err
  /-- Error `IndexError` from `s[0]` when a subset is the empty list. -/
  | indexError : Err
  /-- Error `MarvinError` from `_check_column` for an unknown column. -/
  | unknownColumn : Err
deriving DecidableEq, Repr

/-- Errors raised by the row merge `new_add` (Python `assert` failures). -/
inductive MergeErr where
  /-- Assertion `Cannot add result rows from different releases`. -/
  | releaseMismatch : MergeErr
  /-- Assertion `Cannot add result rows generated using different search
  filters`. -/
  | filterMismatch : MergeErr
  /-- Assertion `The plateifus must be the same to add these rows`. -/
  | plateifuMismatch : MergeErr
deriving DecidableEq, Repr

/-- Representation of the stored query: either the literal SQL string
(remote mode) or a live SQLAlchemy query handle (local mode), the latter
stood in for by a numeric id. -/
inductive QueryRepr where
  | qstr : String → QueryRepr
  | qlive : Nat → QueryRepr
deriving DecidableEq, Repr

/-- Model of a `marvintuple` row: named fields in declaration order, plus
the class-level `_release` and `_searchfilter` attributes (taken from the
owning `Results` object at class-creation time, `none` when absent). -/
structure MRow (β : Type) where
  fields : List (String × β)
  release : Option String
  searchfilter : Option String
deriving DecidableEq, Repr

/-- Python truthiness of an optional string: `None` and the empty string
are falsy. -/
def truthy (o : Option String) : Bool :=
  match o with
  | none => false
  | some s => s != ""

/-- Model of `OrderedDict.update`: keys of `a` keep their position and
take the value from `b` when `b` also has the key; keys only in `b` are
appended in the order they have in `b`.  This is the
`self_dict.update(other_dict)` step of `new_add`. -/
def dictUpdate (a b : List (String × β)) : List (String × β) :=
  a.map (fun p => (p.1, ((b.lookup p.1).getD p.2))) ++
    b.filter (fun p => (a.lookup p.1).isNone)

/-- Overloaded `__add__` installed on every `marvintuple` class
(`new_add`, results.py lines 102-119): asserts equal releases and search
filters only when the corresponding attribute of the left row is truthy,
asserts equal `plateifu`, then merges the two field dictionaries with the
values of the right row winning on collision. -/
def new_add [DecidableEq β] (a b : MRow β) : Except MergeErr (MRow β) :=
  if truthy a.release ∧ a.release ≠ b.release then
    Except.error MergeErr.releaseMismatch
  else if truthy a.searchfilter ∧ a.searchfilter ≠ b.searchfilter then
    Except.error MergeErr.filterMismatch
  else if a.fields.lookup "plateifu" ≠ b.fields.lookup "plateifu" then
    Except.error MergeErr.plateifuMismatch
  else
    Except.ok ⟨dictUpdate a.fields b.fields, a.release, a.searchfilter⟩

/-- Python slice `l[a:b]` for non-negative bounds, as produced by
`query.slice(a, b).all()` on the local query handle and by the remote
`getsubset` route. -/
def pySlice (l : List α) (a b : Nat) : List α :=
  (l.take b).drop a

/-- Mutable state of a `Results` controller.  `stop` is the attribute
`self.end` of the source (`end` is reserved in Lean).  `source` is the
full logical result set behind the query handle / remote service;
`urlmapPresent` and `remoteOk` model whether `config.urlmap` is
configured and whether the HTTP `Interaction` succeeds. -/
structure ResultsState (α : Type) where
  source : List α
  results : List α
  start : Nat
  stop : Nat
  count : Nat
  chunk : Nat
  totalcount : Nat
  mode : Mode
  urlmapPresent : Bool
  remoteOk : Bool
  columns : List String
  queryobj : Option Nat
  query : Option QueryRepr
  searchfilter : Option String
  returnparams : List String
  release : Option String
  limit : Option Nat
  sortcol : Option String
  order : Option Bool
deriving DecidableEq, Repr

/-- Outcome of one navigation call: the post-call state (including any
mutations made before a raise), the raised error if any, and the warnings
emitted. -/
structure Step (α : Type) where
  st : ResultsState α
  err : Option Err
  warns : List Warn
deriving DecidableEq, Repr

/-- Chunk-argument handling shared by `getNext` and `getPrevious`:
`if chunk and chunk < 0: warn; chunk = self.chunk` followed by
`self.chunk = chunk if chunk else self.chunk`.  Returns the effective
chunk stored into `self.chunk` and the warnings emitted. -/
def resolveChunk (s : ResultsState α) (chunk? : Option Int) : Nat × List Warn :=
  match chunk? with
  | none => (s.chunk, [])
  | some c =>
    if c < 0 then (s.chunk, [Warn.negChunk])
    else if c = 0 then (s.chunk, [])
    else (c.toNat, [])

/-- Limit handling of `getSubset`: `if not limit: limit = self.chunk`
then `if limit < 0: warn; limit = self.chunk`. -/
def resolveLimit (s : ResultsState α) (limit? : Option Int) : Nat × List Warn :=
  match limit? with
  | none => (s.chunk, [])
  | some l =>
    if l = 0 then (s.chunk, [])
    else if l < 0 then (s.chunk, [Warn.negChunk])
    else (l.toNat, [])

/-- Mode dispatch for one row fetch over the window `[a, b)`: the local
strategy slices the live query, the remote strategy fails without a route
map or on transport failure and otherwise returns the same slice of the
logical result set (spec section 6: both strategies serve the same row
shape for a requested window). -/
def fetchRows (s : ResultsState α) (a b : Nat) : Except Err (List α) :=
  match s.mode with
  | Mode.loc => Except.ok (pySlice s.source a b)
  | Mode.rem =>
    if ¬ s.urlmapPresent then Except.error Err.noRouteMap
    else if ¬ s.remoteOk then Except.error Err.transport
    else Except.ok (pySlice s.source a b)

/-- Body of `getNext` after the chunk argument has been resolved to `c`
(already stored into `self.chunk`).  Mirrors results.py lines 915-950:
the already-complete guard, the end clamp, the mode dispatch, and the
final `self.start` / `self.end` / `self.count` assignments (which on a
remote failure are never reached, leaving only the chunk mutated). -/
def getNextCore (s : ResultsState α) (c : Nat) : Step α :=
  let newstart := s.stop
  let s1 : ResultsState α := { s with chunk := c }
  let newend := newstart + c
  if s1.totalcount = s1.count then
    ⟨s1, none, [Warn.allResults]⟩
  else
    let ab : Nat × Nat × List Warn :=
      if s1.totalcount < newend then (s.stop, s1.totalcount, [Warn.atEnd])
      else (newstart, newend, [])
    match fetchRows s1 ab.1 ab.2.1 with
    | Except.error e => ⟨s1, some e, ab.2.2⟩
    | Except.ok rows =>
      ⟨{ s1 with results := rows, start := ab.1, stop := ab.2.1,
                 count := rows.length }, none, ab.2.2⟩

/-- Model of `Results.getNext(chunk=None)` (results.py lines 884-955). -/
def getNext (s : ResultsState α) (chunk? : Option Int) : Step α :=
  let rc := resolveChunk s chunk?
  let r := getNextCore s rc.1
  ⟨r.st, r.err, rc.2 ++ r.warns⟩

/-- Body of `getPrevious` after chunk resolution; mirrors results.py
lines 988-1024 (`newend = self.start`, the already-complete guard, the
start clamp, mode dispatch, final assignments). -/
def getPreviousCore (s : ResultsState α) (c : Nat) : Step α :=
  let newend := s.start
  let s1 : ResultsState α := { s with chunk := c }
  if s1.totalcount = s1.count then
    ⟨s1, none, [Warn.allResults]⟩
  else
    let ab : Nat × Nat × List Warn :=
      if newend < c then (0, s.start, [Warn.atStart])
      else (newend - c, newend, [])
    match fetchRows s1 ab.1 ab.2.1 with
    | Except.error e => ⟨s1, some e, ab.2.2⟩
    | Except.ok rows =>
      ⟨{ s1 with results := rows, start := ab.1, stop := ab.2.1,
                 count := rows.length }, none, ab.2.2⟩

/-- Model of `Results.getPrevious(chunk=None)` (results.py lines
957-1029). -/
def getPrevious (s : ResultsState α) (chunk? : Option Int) : Step α :=
  let rc := resolveChunk s chunk?
  let r := getPreviousCore s rc.1
  ⟨r.st, r.err, rc.2 ++ r.warns⟩

/-- Body of `getSubset` after limit resolution; mirrors results.py lines
1066-1091: negative `start` clamps to 0, `end = start + limit` (the clamp
of `end` to the count is commented out in the source), then `self.start`,
`self.end` and `self.chunk` are assigned *before* the mode dispatch, so a
remote failure leaves them at the requested values. -/
def getSubsetCore (s : ResultsState α) (start : Int) (lim : Nat) : Step α :=
  let a : Nat := if start < 0 then 0 else start.toNat
  let b : Nat := a + lim
  let s1 : ResultsState α := { s with start := a, stop := b, chunk := lim }
  match fetchRows s1 a b with
  | Except.error e => ⟨s1, some e, []⟩
  | Except.ok rows => ⟨{ s1 with results := rows, count := rows.length }, none, []⟩

/-- Model of `Results.getSubset(start, limit=None)` (results.py lines
1031-1095). -/
def getSubset (s : ResultsState α) (start : Int) (limit? : Option Int) : Step α :=
  let rl := resolveLimit s limit?
  let r := getSubsetCore s start rl.1
  ⟨r.st, r.err, rl.2 ++ r.warns⟩

/-- Model of `Results.getAll()` (results.py lines 1124-1155): refuses
oversized result sets up front; locally materializes the full query,
remotely requests `return_all` and then sets `self.count =
self.totalcount`. -/
def getAll (s : ResultsState α) : Step α :=
  if 500000 < s.totalcount ∨ 25 < s.columns.length then
    ⟨s, some Err.resultTooLarge, []⟩
  else
    match s.mode with
    | Mode.loc =>
      ⟨{ s with results := s.source, count := s.source.length }, none, []⟩
    | Mode.rem =>
      if ¬ s.urlmapPresent then ⟨s, some Err.noRouteMap, []⟩
      else if ¬ s.remoteOk then ⟨s, some Err.transport, []⟩
      else ⟨{ s with results := s.source, count := s.totalcount }, none, []⟩

/-- Model of `Results.merge_subsets(subsets)` (results.py lines
1097-1122) over rows of a controller whose buffer holds `MRow` values.
`same_count` is the truthiness check `all([len(s[0]) for s in subsets])`
of the source (NOT an equal-cardinality check); `same_cols` compares the
first-row field names of each subset with the remote names of the
registry.  An empty subset raises `IndexError` at `s[0]`; the `isnested`
input-shape guard is enforced by the Lean type.  `sum(subsets, [])` is a
left fold of list append. -/
def merge_subsets (s : ResultsState (MRow β)) (subsets : List (List (MRow β))) :
    Step (MRow β) :=
  if subsets.any (fun sub => sub.isEmpty) then
    ⟨s, some Err.indexError, []⟩
  else
    let same_count := subsets.all
      (fun sub => (sub.headD ⟨[], none, none⟩).fields.length != 0)
    let same_cols := subsets.all
      (fun sub => ((sub.headD ⟨[], none, none⟩).fields.map Prod.fst) == s.columns)
    if same_count then
      if same_cols then
        let output := subsets.foldl (fun acc sub => acc ++ sub) []
        ⟨{ s with results := output, count := output.length }, none, []⟩
      else ⟨s, some Err.columnMismatch, []⟩
    else ⟨s, some Err.columnCountMismatch, []⟩

/-- Stable insertion of `x` into `l` before the first element `y` with
`leb x y`. -/
def insertBy (leb : α → α → Bool) (x : α) : List α → List α
  | [] => [x]
  | y :: ys => if leb x y then x :: y :: ys else y :: insertBy leb x ys

/-- Stable insertion sort, modelling the stable Python `list.sort`. -/
def sortBy (leb : α → α → Bool) : List α → List α
  | [] => []
  | x :: xs => insertBy leb x (sortBy leb xs)

/-- Stable sort of rows by a column key; `desc` models `reverse=True`. -/
def sortRows (key : α → Int) (desc : Bool) (l : List α) : List α :=
  if desc then sortBy (fun x y => key y ≤ key x) l
  else sortBy (fun x y => key x ≤ key y) l

/-- Model of `Results.sort(name, order)` (results.py lines 354-411):
resolves the column (raising for an unknown name before any mutation),
records the sort state, then either sorts the local buffer in place or
issues the remote sorted query.  `key` is the resolved column accessor.
The content of the remote success response is modelled from the spec
(section 6): the sorted result set served by the remote strategy, capped
at the query limit (the server side is not under src/). -/
def sortResults (s : ResultsState α) (name : String) (desc : Bool)
    (key : α → Int) : Step α :=
  if ¬ s.columns.contains name then ⟨s, some Err.unknownColumn, []⟩
  else
    let s1 : ResultsState α := { s with sortcol := some name, order := some desc }
    match s1.mode with
    | Mode.loc => ⟨{ s1 with results := sortRows key desc s1.results }, none, []⟩
    | Mode.rem =>
      if ¬ s1.urlmapPresent then ⟨s1, some Err.noRouteMap, []⟩
      else if ¬ s1.remoteOk then ⟨s1, some Err.transport, []⟩
      else
        let sortedAll := sortRows key desc s1.source
        let rows := match s1.limit with
          | some n => pySlice sortedAll 0 n
          | none => sortedAll
        ⟨{ s1 with results := rows, count := rows.length }, none, []⟩

/-- State mutation performed by `Results.save` before pickling
(results.py lines 604-608): `self._queryobj = None`, and `self.query` is
set to `None` when it is not already a literal string.  The filesystem
handling of `save` (default path, overwrite guard, cleanup on failure)
does not touch any other controller state. -/
def savePrep (s : ResultsState α) : ResultsState α :=
  let s1 : ResultsState α := { s with queryobj := none }
  match s1.query with
  | some (QueryRepr.qstr _) => s1
  | _ => { s1 with query := none }

/-- Modelled from the spec: `Results.restore` delegates to
`marvin_pickle.restore` (marvin/core/marvin_pickle.py, which is not under
src/); per spec section 4.6 it deserializes the single-file archive,
yielding an object equal to the controller state that was serialized. -/
def restorePickle (archived : ResultsState α) : ResultsState α :=
  archived

/-- Concrete local-mode controller used by witnesses: thirty rows in the
underlying result set, a buffer holding the first page of ten. -/
def baseState : ResultsState Int :=
  { source := List.replicate 30 0
    results := List.replicate 10 0
    start := 0
    stop := 10
    count := 10
    chunk := 10
    totalcount := 30
    mode := Mode.loc
    urlmapPresent := true
    remoteOk := true
    columns := ["mangaid", "plate", "plateifu", "ifu_name"]
    queryobj := some 1
    query := some (QueryRepr.qlive 1)
    searchfilter := some "nsa.z<0.1"
    returnparams := []
    release := some "MPL-5"
    limit := none
    sortcol := none
    order := none }

end Marvin

namespace Marvin

lemma pySlice_length_le (l : List α) (a n : Nat) :
    (pySlice l a (a + n)).length ≤ n := by
  simp [pySlice]
  omega

lemma fetchRows_ok_eq {s : ResultsState α} {a b : Nat} {rows : List α}
    (h : fetchRows s a b = Except.ok rows) : rows = pySlice s.source a b := by
  unfold fetchRows at h
  split at h
  · exact (Except.ok.inj h).symm
  · split at h
    · simp at h
    · split at h
      · simp at h
      · exact (Except.ok.inj h).symm

lemma getSubsetCore_st (s : ResultsState α) (a : Int) (lim : Nat) :
    (getSubsetCore s a lim).st.start = (if a < 0 then 0 else a.toNat) ∧
    (getSubsetCore s a lim).st.stop = (if a < 0 then 0 else a.toNat) + lim ∧
    (getSubsetCore s a lim).st.chunk = lim ∧
    ((getSubsetCore s a lim).err = none →
      (getSubsetCore s a lim).st.results.length ≤ lim) := by
  unfold getSubsetCore
  dsimp only
  split
  · simp
  · next rows heq =>
    refine ⟨rfl, rfl, rfl, fun _ => ?_⟩
    have hr := fetchRows_ok_eq heq
    subst hr
    simpa using pySlice_length_le s.source (if a < 0 then 0 else a.toNat) lim

end Marvin

namespace Marvin

/-- C5: for every start and limit, `subset(start, limit)` clamps a
negative start to 0, falls back to the current chunk size when the limit
is non-positive or omitted, does not clamp the requested end to the total
count (the new window end is always `start + limit`), and for every valid
`start >= 0` a returning call yields at most `limit` rows with the window
start of the buffer equal to `start`. -/
theorem getSubset_spec (s : ResultsState α) (a : Int) (l : Option Int) :
    (a < 0 → (getSubset s a l).st.start = 0) ∧
    ((l = none ∨ ∃ v, l = some v ∧ v ≤ 0) → (getSubset s a l).st.chunk = s.chunk) ∧
    ((getSubset s a l).st.stop = (getSubset s a l).st.start + (getSubset s a l).st.chunk) ∧
    (0 ≤ a → (getSubset s a l).st.start = a.toNat) ∧
    ((getSubset s a l).err = none →
      (getSubset s a l).st.results.length ≤ (getSubset s a l).st.chunk) := by
  obtain ⟨h1, h2, h3, h4⟩ := getSubsetCore_st s a (resolveLimit s l).1
  have hst : (getSubset s a l).st = (getSubsetCore s a (resolveLimit s l).1).st := rfl
  have herr : (getSubset s a l).err = (getSubsetCore s a (resolveLimit s l).1).err := rfl
  refine ⟨?_, ?_, ?_, ?_, ?_⟩
  · intro ha
    rw [hst, h1, if_pos ha]
  · rintro (rfl | ⟨v, rfl, hv⟩)
    · rw [hst, h3]
      simp [resolveLimit]
    · have hfst : (resolveLimit s (some v)).1 = s.chunk := by
        by_cases hv0 : v = 0
        · simp [resolveLimit, hv0]
        · simp [resolveLimit, hv0, lt_of_le_of_ne hv hv0]
      rw [hst, h3, hfst]
  · rw [hst, h1, h2, h3]
  · intro ha
    rw [hst, h1, if_neg (not_lt.mpr ha)]
  · intro he
    rw [hst, h3]
    exact h4 (by rw [herr] at he; exact he)

/-- Witness for C5 at a concrete controller: a negative start clamps to
0, an omitted limit falls back to the chunk size of the controller, the
window end is start plus limit, and the returned page is no longer than
the limit. -/
theorem getSubset_spec_w :
    (getSubset baseState (-3) none).st.start = 0 ∧
    (getSubset baseState (-3) none).st.chunk = baseState.chunk ∧
    (getSubset baseState (-3) none).st.stop =
      (getSubset baseState (-3) none).st.start +
        (getSubset baseState (-3) none).st.chunk ∧
    (getSubset baseState (-3) none).st.results.length ≤
      (getSubset baseState (-3) none).st.chunk := by
  obtain ⟨h1, h2, h3, _, h5⟩ := getSubset_spec baseState (-3) none
  exact ⟨h1 (by decide), h2 (Or.inl rfl), h3, h5 (by decide)⟩

/-- C3: `get_all` on a controller whose total count exceeds 500000 or
whose registry has more than 25 columns raises the oversized-result
error and leaves the whole state, in particular the buffer, unchanged. -/
theorem getAll_too_large (s : ResultsState α)
    (h : 500000 < s.totalcount ∨ 25 < s.columns.length) :
    getAll s = ⟨s, some Err.resultTooLarge, []⟩ := by
  unfold getAll
  rw [if_pos h]

/-- Witness for C3: a controller with total count 600000 raises and its
state is unmodified. -/
theorem getAll_too_large_w :
    getAll { baseState with totalcount := 600000 } =
      ⟨{ baseState with totalcount := 600000 }, some Err.resultTooLarge, []⟩ :=
  getAll_too_large _ (Or.inl (by decide))

/-- C8: a negative requested chunk never fails `next` or `previous`: the
call behaves exactly like a call with the chunk argument omitted (which
uses the previous chunk size), except that the negative-chunk warning is
additionally emitted. -/
theorem negative_chunk_fallback (s : ResultsState α) (c : Int) (hc : c < 0) :
    (getNext s (some c)).st = (getNext s none).st ∧
    (getNext s (some c)).err = (getNext s none).err ∧
    Warn.negChunk ∈ (getNext s (some c)).warns ∧
    (getPrevious s (some c)).st = (getPrevious s none).st ∧
    (getPrevious s (some c)).err = (getPrevious s none).err ∧
    Warn.negChunk ∈ (getPrevious s (some c)).warns := by
  have hn : resolveChunk s (some c) = (s.chunk, [Warn.negChunk]) := by
    simp [resolveChunk, hc]
  have hn2 : resolveChunk s none = (s.chunk, []) := rfl
  refine ⟨?_, ?_, ?_, ?_, ?_, ?_⟩ <;>
    simp [getNext, getPrevious, hn, hn2]

/-- Witness for C8: `next(chunk=-5)` on a controller with prior chunk
size 10 behaves like `next()` with chunk 10 and emits the warning. -/
theorem negative_chunk_fallback_w :
    (getNext baseState (some (-5))).st = (getNext baseState none).st ∧
    (getNext baseState (some (-5))).err = (getNext baseState none).err ∧
    Warn.negChunk ∈ (getNext baseState (some (-5))).warns ∧
    (getPrevious baseState (some (-5))).st = (getPrevious baseState none).st ∧
    (getPrevious baseState (some (-5))).err = (getPrevious baseState none).err ∧
    Warn.negChunk ∈ (getPrevious baseState (some (-5))).warns :=
  negative_chunk_fallback baseState (-5) (by decide)

end Marvin

namespace Marvin

/-- Counterexample for C9: on a controller whose stored query is a live
(non-string) object, `save` does not convert the query to its literal
string form; it replaces it with `None`, so the archived controller
carries a null query, exactly what the claim excludes. -/
theorem save_nulls_live_query_cex :
    baseState.query = some (QueryRepr.qlive 1) ∧
    (savePrep baseState).query = none ∧
    (savePrep baseState).queryobj = none :=
  ⟨rfl, rfl, rfl⟩

/-- C9 (amended): `save` drops the live local query handle
(`self._queryobj = None`); a stored query that is already a literal
string is kept as-is, and any non-string stored query is replaced with
`None` (not with its literal string form) before serialization, so the
archive never carries a live query object. -/
theorem savePrep_spec (s : ResultsState α) :
    (savePrep s).queryobj = none ∧
    (∀ q, s.query = some (QueryRepr.qstr q) →
      (savePrep s).query = some (QueryRepr.qstr q)) ∧
    ((∀ q, s.query ≠ some (QueryRepr.qstr q)) → (savePrep s).query = none) ∧
    (∀ h, (savePrep s).query ≠ some (QueryRepr.qlive h)) := by
  unfold savePrep
  rcases hq : s.query with _ | q
  · simp [hq]
  · rcases q with q | h <;> simp [hq]

/-- Witness for C9 (amended): a controller with a literal string query
keeps it, and the one of `baseState` with a live query handle ends with
a null query and no query object. -/
theorem savePrep_spec_w :
    (savePrep { baseState with query := some (QueryRepr.qstr "SELECT 1") }).query =
      some (QueryRepr.qstr "SELECT 1") ∧
    (savePrep { baseState with query := some (QueryRepr.qstr "SELECT 1") }).queryobj =
      none :=
  ⟨(savePrep_spec _).2.1 "SELECT 1" rfl, (savePrep_spec _).1⟩

/-- C10: restoring a saved controller yields one whose query fingerprint
(search filter, requested parameters, release, limit), row contents and
column registry equal the originals, and whose local query handle is
absent.  The pickle round trip itself is `restorePickle`, modelled from
the spec because `marvin_pickle` is not under src/. -/
theorem save_restore_roundtrip (s : ResultsState α) :
    (restorePickle (savePrep s)).searchfilter = s.searchfilter ∧
    (restorePickle (savePrep s)).returnparams = s.returnparams ∧
    (restorePickle (savePrep s)).release = s.release ∧
    (restorePickle (savePrep s)).limit = s.limit ∧
    (restorePickle (savePrep s)).results = s.results ∧
    (restorePickle (savePrep s)).columns = s.columns ∧
    (restorePickle (savePrep s)).queryobj = none := by
  unfold restorePickle savePrep
  rcases hq : s.query with _ | q
  · simp [hq]
  · rcases q with q | h <;> simp [hq]

end Marvin

namespace Marvin

lemma eta_chunk (t : ResultsState α) :
    ({ t with chunk := t.chunk } : ResultsState α) = t := rfl

lemma getNextCore_cases (s : ResultsState α) (cn : Nat) :
    (getNextCore s cn).err = none ∨
    (getNextCore s cn).st = { s with chunk := cn } := by
  unfold getNextCore
  dsimp only
  split
  · exact Or.inl rfl
  · split
    · exact Or.inr rfl
    · exact Or.inl rfl

lemma getPreviousCore_cases (s : ResultsState α) (cn : Nat) :
    (getPreviousCore s cn).err = none ∨
    (getPreviousCore s cn).st = { s with chunk := cn } := by
  unfold getPreviousCore
  dsimp only
  split
  · exact Or.inl rfl
  · split
    · exact Or.inr rfl
    · exact Or.inl rfl

lemma getSubsetCore_cases (s : ResultsState α) (a : Int) (lim : Nat) :
    (getSubsetCore s a lim).err = none ∨
    ((getSubsetCore s a lim).st.results = s.results ∧
     (getSubsetCore s a lim).st.count = s.count) := by
  unfold getSubsetCore
  dsimp only
  split
  · exact Or.inr ⟨rfl, rfl⟩
  · exact Or.inl rfl

lemma getAll_cases (s : ResultsState α) :
    (getAll s).err = none ∨ (getAll s).st = s := by
  unfold getAll
  split
  · exact Or.inr rfl
  · split
    · exact Or.inl rfl
    · split
      · exact Or.inr rfl
      · split
        · exact Or.inr rfl
        · exact Or.inl rfl

lemma sortResults_cases (s : ResultsState α) (nm : String) (dsc : Bool)
    (key : α → Int) :
    (sortResults s nm dsc key).err = none ∨
    ((sortResults s nm dsc key).st.results = s.results ∧
     (sortResults s nm dsc key).st.count = s.count ∧
     (sortResults s nm dsc key).st.start = s.start ∧
     (sortResults s nm dsc key).st.stop = s.stop ∧
     (sortResults s nm dsc key).st.chunk = s.chunk) := by
  unfold sortResults
  dsimp only
  split
  · exact Or.inr ⟨rfl, rfl, rfl, rfl, rfl⟩
  · split
    · exact Or.inl rfl
    · split
      · exact Or.inr ⟨rfl, rfl, rfl, rfl, rfl⟩
      · split
        · exact Or.inr ⟨rfl, rfl, rfl, rfl, rfl⟩
        · exact Or.inl rfl

/-- Concrete remote-mode controller whose transport fails. -/
def remoteFailState : ResultsState Int :=
  { baseState with mode := Mode.rem, remoteOk := false }

/-- Counterexample for C7: a `subset` call that ends in a remote
transport failure aborts, yet the pagination state is NOT left at its
pre-call values: `self.start`, `self.end` and `self.chunk` were assigned
the requested window before the failed dispatch. -/
theorem remote_failure_mutates_cursor_cex :
    (getSubset remoteFailState 5 (some 7)).err = some Err.transport ∧
    remoteFailState.start = 0 ∧
    remoteFailState.stop = 10 ∧
    remoteFailState.chunk = 10 ∧
    (getSubset remoteFailState 5 (some 7)).st.start = 5 ∧
    (getSubset remoteFailState 5 (some 7)).st.stop = 12 ∧
    (getSubset remoteFailState 5 (some 7)).st.chunk = 7 := by
  decide

/-- C7 (amended): every navigation operation that ends in a fatal error
(in particular a remote transport failure) aborts with the buffer (rows
and count) left untouched; `get_all` and `sort` additionally leave the
window and chunk untouched, and `next` / `previous` leave the window
untouched, but `subset` records the requested window and `next` /
`previous` record the requested chunk size before the failure. -/
theorem fatal_error_preserves_buffer (s : ResultsState α) (c d : Option Int)
    (a : Int) (l : Option Int) (nm : String) (dsc : Bool) (key : α → Int) :
    ((getNext s c).err.isSome →
      (getNext s c).st.results = s.results ∧ (getNext s c).st.count = s.count ∧
      (getNext s c).st.start = s.start ∧ (getNext s c).st.stop = s.stop) ∧
    ((getPrevious s d).err.isSome →
      (getPrevious s d).st.results = s.results ∧
      (getPrevious s d).st.count = s.count ∧
      (getPrevious s d).st.start = s.start ∧
      (getPrevious s d).st.stop = s.stop) ∧
    ((getSubset s a l).err.isSome →
      (getSubset s a l).st.results = s.results ∧
      (getSubset s a l).st.count = s.count) ∧
    ((getAll s).err.isSome → (getAll s).st = s) ∧
    ((sortResults s nm dsc key).err.isSome →
      (sortResults s nm dsc key).st.results = s.results ∧
      (sortResults s nm dsc key).st.count = s.count ∧
      (sortResults s nm dsc key).st.start = s.start ∧
      (sortResults s nm dsc key).st.stop = s.stop ∧
      (sortResults s nm dsc key).st.chunk = s.chunk) := by
  refine ⟨?_, ?_, ?_, ?_, ?_⟩
  · intro h
    rcases getNextCore_cases s (resolveChunk s c).1 with he | hst
    · have h0 : (getNext s c).err = none := he
      rw [h0] at h
      simp at h
    · have h1 : (getNext s c).st = { s with chunk := (resolveChunk s c).1 } := hst
      rw [h1]
      exact ⟨rfl, rfl, rfl, rfl⟩
  · intro h
    rcases getPreviousCore_cases s (resolveChunk s d).1 with he | hst
    · have h0 : (getPrevious s d).err = none := he
      rw [h0] at h
      simp at h
    · have h1 : (getPrevious s d).st = { s with chunk := (resolveChunk s d).1 } := hst
      rw [h1]
      exact ⟨rfl, rfl, rfl, rfl⟩
  · intro h
    rcases getSubsetCore_cases s a (resolveLimit s l).1 with he | ⟨h1, h2⟩
    · have h0 : (getSubset s a l).err = none := he
      rw [h0] at h
      simp at h
    · exact ⟨h1, h2⟩
  · intro h
    rcases getAll_cases s with he | hst
    · rw [he] at h
      simp at h
    · exact hst
  · intro h
    rcases sortResults_cases s nm dsc key with he | hst
    · rw [he] at h
      simp at h
    · exact hst

/-- Witness for C7 (amended): the failing remote `subset` call of the
counterexample indeed leaves the buffer rows and count untouched. -/
theorem fatal_error_preserves_buffer_w :
    (getSubset remoteFailState 5 (some 7)).st.results = remoteFailState.results ∧
    (getSubset remoteFailState 5 (some 7)).st.count = remoteFailState.count :=
  (fatal_error_preserves_buffer remoteFailState none none 5 (some 7)
    "mangaid" false (fun _ => 0)).2.2.1 (by decide)

end Marvin

namespace Marvin

lemma fetchRows_eq_ok_or_err (s : ResultsState α) :
    (∀ a b, fetchRows s a b = Except.ok (pySlice s.source a b)) ∨
    (∃ e, ∀ a b, fetchRows s a b = Except.error e) := by
  by_cases hm : s.mode = Mode.loc
  · exact Or.inl (fun a b => by simp [fetchRows, hm])
  · have hm2 : s.mode = Mode.rem := by
      cases h : s.mode
      · exact absurd h hm
      · rfl
    by_cases hu : s.urlmapPresent
    · by_cases hr : s.remoteOk
      · exact Or.inl (fun a b => by simp [fetchRows, hm2, hu, hr])
      · exact Or.inr ⟨Err.transport, fun a b => by simp [fetchRows, hm2, hu, hr]⟩
    · exact Or.inr ⟨Err.noRouteMap, fun a b => by simp [fetchRows, hm2, hu]⟩

lemma getNextCore_step (t : ResultsState α)
    (hg : ¬ t.totalcount = t.count)
    (hok : ∀ a b, fetchRows t a b = Except.ok (pySlice t.source a b)) :
    (getNextCore t t.chunk).st =
      { t with results := pySlice t.source t.stop (min (t.stop + t.chunk) t.totalcount),
               start := t.stop,
               stop := min (t.stop + t.chunk) t.totalcount,
               count := (pySlice t.source t.stop
                 (min (t.stop + t.chunk) t.totalcount)).length } := by
  unfold getNextCore
  dsimp only
  rw [eta_chunk, if_neg hg]
  by_cases hclamp : t.totalcount < t.stop + t.chunk
  · rw [if_pos hclamp, hok]
    rw [min_eq_right (le_of_lt hclamp)]
  · rw [if_neg hclamp, hok]
    rw [min_eq_left (not_lt.mp hclamp)]

lemma getNextCore_err (t : ResultsState α)
    (hg : ¬ t.totalcount = t.count)
    (herr : ∀ a b, fetchRows t a b = Except.error e) :
    (getNextCore t t.chunk).st = t := by
  unfold getNextCore
  dsimp only
  rw [eta_chunk, if_neg hg]
  by_cases hclamp : t.totalcount < t.stop + t.chunk
  · rw [if_pos hclamp, herr]
  · rw [if_neg hclamp, herr]

lemma getPreviousCore_step (t : ResultsState α)
    (hg : ¬ t.totalcount = t.count) (hc : t.chunk ≤ t.start)
    (hok : ∀ a b, fetchRows t a b = Except.ok (pySlice t.source a b)) :
    (getPreviousCore t t.chunk).st.start = t.start - t.chunk ∧
    (getPreviousCore t t.chunk).st.stop = t.start := by
  unfold getPreviousCore
  dsimp only
  rw [eta_chunk, if_neg hg, if_neg (not_lt.mpr hc), hok]
  exact ⟨rfl, rfl⟩

lemma getPreviousCore_err (t : ResultsState α)
    (hg : ¬ t.totalcount = t.count)
    (herr : ∀ a b, fetchRows t a b = Except.error e) :
    (getPreviousCore t t.chunk).st = t := by
  unfold getPreviousCore
  dsimp only
  rw [eta_chunk, if_neg hg]
  by_cases hcl : t.start < t.chunk
  · rw [if_pos hcl, herr]
  · rw [if_neg hcl, herr]

end Marvin

namespace Marvin

/-- Concrete controller sitting on the clamped final window `[10, 15)` of
a 15-row result set (exactly the state a clamped `next` leaves behind). -/
def endClampState : ResultsState Int :=
  { baseState with
    source := List.replicate 15 0
    results := List.replicate 5 0
    start := 10
    stop := 15
    count := 5
    totalcount := 15 }

/-- Counterexample for C4: from the window `[10, 15)` with chunk size 10,
`next()` followed by `previous()` (equal, defaulted chunk sizes) lands on
the window `[5, 15)`, not on the original `[10, 15)`: the pair is not an
inverse when the current window is not chunk-aligned. -/
theorem next_previous_not_inverse_cex :
    endClampState.start = 10 ∧ endClampState.stop = 15 ∧
    (getPrevious (getNext endClampState none).st none).st.start = 5 ∧
    (getPrevious (getNext endClampState none).st none).st.stop = 15 := by
  decide

/-- C4 (amended): `next()` followed by `previous()` with equal (defaulted)
chunk sizes returns the buffer to its original window, provided the
current window is chunk-aligned (`end = start + chunk` with a positive
chunk) and the buffer count does not exceed the total count; without the
alignment premise (for instance after a clamped step at the end of the
result set) the pair can land on a different window. -/
theorem next_previous_window_roundtrip (s : ResultsState α)
    (halign : s.stop = s.start + s.chunk) (hchunk : 0 < s.chunk)
    (hcount : s.count ≤ s.totalcount) (hsrc : s.source.length = s.totalcount) :
    (getPrevious (getNext s none).st none).st.start = s.start ∧
    (getPrevious (getNext s none).st none).st.stop = s.stop := by
  have hstopc : s.chunk ≤ s.stop := by omega
  by_cases hguard : s.totalcount = s.count
  · have h1 : (getNext s none).st = s := by
      show (getNextCore s s.chunk).st = s
      unfold getNextCore
      dsimp only
      rw [eta_chunk, if_pos hguard]
    rw [h1]
    show (getPreviousCore s s.chunk).st.start = s.start ∧
      (getPreviousCore s s.chunk).st.stop = s.stop
    unfold getPreviousCore
    dsimp only
    rw [eta_chunk, if_pos hguard]
    exact ⟨rfl, rfl⟩
  · have hTpos : 0 < s.totalcount := by
      have := Nat.lt_of_le_of_ne hcount (fun h => hguard h.symm)
      omega
    have hstop1 : 1 ≤ s.stop := by omega
    rcases fetchRows_eq_ok_or_err s with hok | ⟨e, herr⟩
    · have h2 := getNextCore_step s hguard hok
      set bm := min (s.stop + s.chunk) s.totalcount with hbm
      set R : ResultsState α :=
        { s with results := pySlice s.source s.stop bm,
                 start := s.stop, stop := bm,
                 count := (pySlice s.source s.stop bm).length } with hRdef
      have hRchunk : R.chunk = s.chunk := rfl
      have hRstart : R.start = s.stop := rfl
      have hRtotal : R.totalcount = s.totalcount := rfl
      have hRcount : R.count = (pySlice s.source s.stop bm).length := rfl
      have hble : bm ≤ s.totalcount := by
        rw [hbm]
        exact min_le_right _ _
      have hlen : (pySlice s.source s.stop bm).length = bm - s.stop := by
        have h0 : (pySlice s.source s.stop bm).length =
            min bm s.source.length - s.stop := by
          simp [pySlice]
        rw [h0, hsrc, min_eq_left hble]
      have hg2 : ¬ R.totalcount = R.count := by
        rw [hRtotal, hRcount, hlen]
        omega
      have hok2 : ∀ a b, fetchRows R a b = Except.ok (pySlice R.source a b) :=
        fun a b => hok a b
      have hprev := getPreviousCore_step R hg2
        (by rw [hRchunk, hRstart]; exact hstopc) hok2
      have hnx : (getNext s none).st = R := h2
      have hpv : (getPrevious R none).st = (getPreviousCore R R.chunk).st := rfl
      rw [hnx, hpv]
      constructor
      · rw [hprev.1, hRstart, hRchunk]
        omega
      · rw [hprev.2, hRstart]
    · have h2 : (getNext s none).st = s := getNextCore_err s hguard herr
      rw [h2]
      have h3 : (getPrevious s none).st = s := getPreviousCore_err s hguard herr
      rw [h3]
      exact ⟨rfl, rfl⟩

/-- Witness for C4 (amended): on the chunk-aligned window `[0, 10)` of a
30-row result set, `next()` then `previous()` restores the window. -/
theorem next_previous_window_roundtrip_w :
    (getPrevious (getNext baseState none).st none).st.start = baseState.start ∧
    (getPrevious (getNext baseState none).st none).st.stop = baseState.stop :=
  next_previous_window_roundtrip baseState (by decide) (by decide) (by decide)
    (by decide)

end Marvin

namespace Marvin

deriving instance DecidableEq for Except

lemma lookup_append_left {l₁ l₂ : List (String × β)} {k : String}
    (h : (l₁.lookup k).isSome) : (l₁ ++ l₂).lookup k = l₁.lookup k := by
  induction l₁ with
  | nil => simp at h
  | cons p tl ih =>
    obtain ⟨k1, v1⟩ := p
    by_cases hk : k == k1
    · simp [List.lookup, hk]
    · have hkf : (k == k1) = false := by simpa using hk
      simp only [List.cons_append, List.lookup, hkf] at h ⊢
      exact ih h

lemma lookup_map_value (a b : List (String × β)) (k : String)
    (ha : (a.lookup k).isSome) (hb : (b.lookup k).isSome) :
    ((a.map (fun p => (p.1, (b.lookup p.1).getD p.2))).lookup k) = b.lookup k := by
  induction a with
  | nil => simp at ha
  | cons p tl ih =>
    obtain ⟨k1, v1⟩ := p
    by_cases hk : k == k1
    · have hkk : k = k1 := eq_of_beq hk
      obtain ⟨w, hw⟩ := Option.isSome_iff_exists.mp hb
      simp [List.lookup, hk, ← hkk, hw]
    · have hkf : (k == k1) = false := by simpa using hk
      simp only [List.map_cons, List.lookup, hkf] at ha ⊢
      exact ih ha

lemma map_fst_of_keyfun (a : List (String × β)) (g : String × β → β) :
    ((a.map (fun p => (p.1, g p))).map Prod.fst) = a.map Prod.fst := by
  induction a with
  | nil => rfl
  | cons p tl ih => simp [ih]

lemma map_fst_filter_key (a b : List (String × β)) :
    ((b.filter (fun p => (a.lookup p.1).isNone)).map Prod.fst) =
      (b.map Prod.fst).filter (fun k => (a.lookup k).isNone) := by
  induction b with
  | nil => rfl
  | cons p tl ih =>
    by_cases hp : (a.lookup p.1).isNone
    · simp [List.filter_cons, hp, ih]
    · simp [List.filter_cons, hp, ih]

/-- C1: for two rows built for the same query (equal class-level release
and search filter), merging raises when the identity keys (`plateifu`)
differ; when they match, the field set of the merged row is the ordered
union of both field sets (fields of the left row in place, new fields of
the right row appended in order) and every field present in both rows
carries the value of the right row. -/
theorem new_add_same_query [DecidableEq β] (a b : MRow β)
    (hrel : a.release = b.release) (hsf : a.searchfilter = b.searchfilter) :
    (¬ a.fields.lookup "plateifu" = b.fields.lookup "plateifu" →
      new_add a b = Except.error MergeErr.plateifuMismatch) ∧
    (a.fields.lookup "plateifu" = b.fields.lookup "plateifu" →
      ∃ r, new_add a b = Except.ok r ∧
        r.fields.map Prod.fst =
          a.fields.map Prod.fst ++
            (b.fields.map Prod.fst).filter
              (fun k => (a.fields.lookup k).isNone) ∧
        (∀ k, (a.fields.lookup k).isSome → (b.fields.lookup k).isSome →
          r.fields.lookup k = b.fields.lookup k)) := by
  have hc1 : ¬ (truthy a.release ∧ a.release ≠ b.release) := by
    rintro ⟨-, hne⟩
    exact hne hrel
  have hc2 : ¬ (truthy a.searchfilter ∧ a.searchfilter ≠ b.searchfilter) := by
    rintro ⟨-, hne⟩
    exact hne hsf
  constructor
  · intro hne
    unfold new_add
    rw [if_neg hc1, if_neg hc2, if_pos hne]
  · intro heq
    refine ⟨⟨dictUpdate a.fields b.fields, a.release, a.searchfilter⟩, ?_, ?_, ?_⟩
    · unfold new_add
      rw [if_neg hc1, if_neg hc2, if_neg (fun h => h heq)]
    · show (dictUpdate a.fields b.fields).map Prod.fst = _
      unfold dictUpdate
      rw [List.map_append, map_fst_of_keyfun, map_fst_filter_key]
    · intro k hka hkb
      show (dictUpdate a.fields b.fields).lookup k = b.fields.lookup k
      unfold dictUpdate
      have hmv := lookup_map_value a.fields b.fields k hka hkb
      rw [lookup_append_left (by rw [hmv]; exact hkb), hmv]

/-- Concrete rows for the merge witnesses (shapes from the spec example:
merging a row with field `a` and a row with fields `a`, `b`). -/
def rowA : MRow Int :=
  ⟨[("plateifu", 8485), ("a", 1)], some "MPL-5", some "flt"⟩

/-- Second concrete row with matching `plateifu` and an extra field. -/
def rowB : MRow Int :=
  ⟨[("plateifu", 8485), ("a", 2), ("b", 3)], some "MPL-5", some "flt"⟩

/-- Third concrete row with a different `plateifu`. -/
def rowC : MRow Int :=
  ⟨[("plateifu", 7443), ("a", 2)], some "MPL-5", some "flt"⟩

/-- Witness for C1: different identity keys raise; matching identity keys
merge with ordered-union fields and right-row values winning. -/
theorem new_add_same_query_w :
    new_add rowA rowC = Except.error MergeErr.plateifuMismatch ∧
    (∃ r, new_add rowA rowB = Except.ok r ∧
      r.fields.map Prod.fst =
        rowA.fields.map Prod.fst ++
          (rowB.fields.map Prod.fst).filter
            (fun k => (rowA.fields.lookup k).isNone) ∧
      (∀ k, (rowA.fields.lookup k).isSome → (rowB.fields.lookup k).isSome →
        r.fields.lookup k = rowB.fields.lookup k)) :=
  ⟨(new_add_same_query rowA rowC rfl rfl).1 (by decide),
   (new_add_same_query rowA rowB rfl rfl).2 (by decide)⟩

/-- Row whose class-level release and search filter are absent. -/
def rowNoFp : MRow Int := ⟨[("plateifu", 8485)], none, none⟩

/-- Row carrying a different fingerprint (release and filter present). -/
def rowOtherFp : MRow Int :=
  ⟨[("plateifu", 8485)], some "DR13", some "nsa.z<0.2"⟩

/-- Counterexample for C6: two rows from different fingerprints (the left
row has absent release and search filter, the right row has both set)
combine silently: `new_add` succeeds because the guards test only the
truthiness of the attributes of the left row. -/
theorem new_add_silent_combine_cex :
    rowNoFp.release ≠ rowOtherFp.release ∧
    rowNoFp.searchfilter ≠ rowOtherFp.searchfilter ∧
    new_add rowNoFp rowOtherFp =
      Except.ok ⟨[("plateifu", 8485)], none, none⟩ := by
  decide

/-- C6 (amended): the merge refuses rows from different fingerprints only
when the corresponding fingerprint field of the left row is truthy
(present and non-empty); an absent or empty left release or search
filter is not checked, and such rows combine silently. -/
theorem new_add_fingerprint_guard [DecidableEq β] (a b : MRow β) :
    (truthy a.release = true → a.release ≠ b.release →
      ∃ e, new_add a b = Except.error e) ∧
    (truthy a.searchfilter = true → a.searchfilter ≠ b.searchfilter →
      ∃ e, new_add a b = Except.error e) := by
  constructor
  · intro ht hne
    exact ⟨MergeErr.releaseMismatch, by unfold new_add; rw [if_pos ⟨ht, hne⟩]⟩
  · intro ht hne
    by_cases h1 : truthy a.release ∧ a.release ≠ b.release
    · exact ⟨MergeErr.releaseMismatch, by unfold new_add; rw [if_pos h1]⟩
    · exact ⟨MergeErr.filterMismatch,
        by unfold new_add; rw [if_neg h1, if_pos ⟨ht, hne⟩]⟩

/-- Witness for C6 (amended): a left row with a truthy release differing
from the release of the right row is refused. -/
theorem new_add_fingerprint_guard_w :
    ∃ e, new_add rowOtherFp rowNoFp = Except.error e :=
  (new_add_fingerprint_guard rowOtherFp rowNoFp).1 (by decide) (by decide)

end Marvin

namespace Marvin

lemma foldl_append_eq_flatten (L : List (List γ)) (acc : List γ) :
    L.foldl (fun x y => x ++ y) acc = acc ++ L.flatten := by
  induction L generalizing acc with
  | nil => simp
  | cons hd tl ih => simp [List.foldl_cons, ih, List.flatten_cons]

/-- C2: when some subset has a first row whose field count differs from
the column count of the registry of the controller, `merge_subsets`
raises a mismatch error and leaves the buffer (results and count)
unmodified; when every subset has exactly the registry column names (with
a non-empty registry), the subsets are concatenated in input order and
replace the current buffer. -/
theorem merge_subsets_spec (s : ResultsState (MRow β))
    (subsets : List (List (MRow β)))
    (hne : ∀ sub ∈ subsets, sub ≠ []) :
    ((∃ sub ∈ subsets,
        ¬ (sub.headD ⟨[], none, none⟩).fields.length = s.columns.length) →
      (merge_subsets s subsets).err.isSome ∧
      (merge_subsets s subsets).st.results = s.results ∧
      (merge_subsets s subsets).st.count = s.count) ∧
    ((∀ sub ∈ subsets,
        (sub.headD ⟨[], none, none⟩).fields.map Prod.fst = s.columns) →
      ¬ s.columns = [] →
      (merge_subsets s subsets).err = none ∧
      (merge_subsets s subsets).st.results = subsets.flatten ∧
      (merge_subsets s subsets).st.count = subsets.flatten.length) := by
  have hae : subsets.any (fun sub => sub.isEmpty) = false := by
    rw [List.any_eq_false]
    intro sub hs
    have h := hne sub hs
    cases sub
    · exact absurd rfl h
    · simp
  unfold merge_subsets
  rw [if_neg (by simp [hae])]
  dsimp only
  constructor
  · rintro ⟨sub, hsub, hlen⟩
    by_cases hsc : subsets.all
        (fun sub => (sub.headD ⟨[], none, none⟩).fields.length != 0) = true
    · by_cases hcl : subsets.all
          (fun sub => ((sub.headD ⟨[], none, none⟩).fields.map Prod.fst)
            == s.columns) = true
      · exfalso
        have hb := List.all_eq_true.mp hcl sub hsub
        have heq2 : (sub.headD ⟨[], none, none⟩).fields.map Prod.fst =
            s.columns := eq_of_beq hb
        have hl := congrArg List.length heq2
        rw [List.length_map] at hl
        exact hlen hl
      · rw [if_pos hsc, if_neg hcl]
        exact ⟨rfl, rfl, rfl⟩
    · rw [if_neg hsc]
      exact ⟨rfl, rfl, rfl⟩
  · intro hcols hcne
    have hsc : subsets.all
        (fun sub => (sub.headD ⟨[], none, none⟩).fields.length != 0) = true := by
      apply List.all_eq_true.mpr
      intro sub hs
      have hlen : (sub.headD ⟨[], none, none⟩).fields.length =
          s.columns.length := by
        have hl := congrArg List.length (hcols sub hs)
        simpa using hl
      rw [bne_iff_ne, hlen]
      intro h0
      exact hcne (List.length_eq_zero.mp h0)
    have hcl : subsets.all
        (fun sub => ((sub.headD ⟨[], none, none⟩).fields.map Prod.fst)
          == s.columns) = true := by
      apply List.all_eq_true.mpr
      intro sub hs
      exact beq_iff_eq.mpr (hcols sub hs)
    rw [if_pos hsc, if_pos hcl]
    refine ⟨rfl, ?_, ?_⟩
    · show subsets.foldl (fun acc sub => acc ++ sub) [] = subsets.flatten
      simpa using foldl_append_eq_flatten subsets []
    · show (subsets.foldl (fun acc sub => acc ++ sub) []).length =
        subsets.flatten.length
      rw [foldl_append_eq_flatten]
      simp

/-- Full row matching the registry of `rowState` (values are numeric
stand-ins). -/
def mrow1 : MRow Int :=
  ⟨[("mangaid", 1), ("plate", 8485), ("plateifu", 1), ("ifu_name", 1901)],
   some "MPL-5", some "flt"⟩

/-- Second full row matching the registry of `rowState`. -/
def mrow2 : MRow Int :=
  ⟨[("mangaid", 2), ("plate", 8485), ("plateifu", 2), ("ifu_name", 1902)],
   some "MPL-5", some "flt"⟩

/-- Row with only one field: a column-count mismatch against the
four-column registry. -/
def mrowShort : MRow Int := ⟨[("mangaid", 3)], some "MPL-5", some "flt"⟩

/-- Concrete controller whose buffer holds `MRow` rows, for the
`merge_subsets` witnesses. -/
def rowState : ResultsState (MRow Int) :=
  { source := [mrow1, mrow2]
    results := [mrow1]
    start := 0
    stop := 1
    count := 1
    chunk := 1
    totalcount := 2
    mode := Mode.loc
    urlmapPresent := true
    remoteOk := true
    columns := ["mangaid", "plate", "plateifu", "ifu_name"]
    queryobj := none
    query := none
    searchfilter := some "flt"
    returnparams := []
    release := some "MPL-5"
    limit := none
    sortcol := none
    order := none }

/-- Witness for C2: a one-field subset raises against the four-column
registry leaving the buffer untouched; two well-formed subsets are
concatenated in order and replace the buffer. -/
theorem merge_subsets_spec_w :
    ((merge_subsets rowState [[mrowShort]]).err.isSome ∧
     (merge_subsets rowState [[mrowShort]]).st.results = rowState.results ∧
     (merge_subsets rowState [[mrowShort]]).st.count = rowState.count) ∧
    ((merge_subsets rowState [[mrow1], [mrow2]]).err = none ∧
     (merge_subsets rowState [[mrow1], [mrow2]]).st.results =
       [[mrow1], [mrow2]].flatten ∧
     (merge_subsets rowState [[mrow1], [mrow2]]).st.count =
       [[mrow1], [mrow2]].flatten.length) :=
  ⟨(merge_subsets_spec rowState [[mrowShort]] (by decide)).1 (by decide),
   (merge_subsets_spec rowState [[mrow1], [mrow2]] (by decide)).2
     (by decide) (by decide)⟩

end Marvin
